import Mathlib

/-!
# Verification of the movie-storyline recommendation engine

Shallow embedding of `recommendation_engine.py` (corpus loader/indexer and
query engine).  Strings are modelled as `List Char`.  Modelling decisions,
each noted again at the definition it concerns:

* Python's `str.lower` is modelled per-character with `Char.toLower`
  (faithful on ASCII input, which is all the regex `[^a-z0-9\s]` keeps anyway).
* `re.sub(r'[^a-z0-9\s]', '', ·)` keeps exactly lowercase letters, digits and
  whitespace; `\s` is modelled by the six ASCII whitespace characters.
* `str.split()` (no separator) splits on whitespace runs and drops empty
  chunks; it is modelled by a direct recursion `pySplit`.
* pandas `read_csv` turns an absent or empty CSV field into NaN, so a record's
  `Storyline` is modelled as `Option Str` with `none` for absent/empty;
  `dropna(subset=['Storyline'])` is a filter on `Option.isSome`.
* `TfidfVectorizer` uses the default token pattern `\b\w\w+\b` (tokens of
  length ≥ 2), the built-in English stop list, raw term counts for tf and a
  smoothed idf `ln((1+n)/(1+df))+1`.  The idf value is transcendental, so it
  is kept as an abstract parameter `idf : ℕ → ℕ → ℚ` (number of documents,
  document frequency); every theorem below is proved for all such parameters,
  hence in particular for the real constants.  The final L2 row normalisation
  is omitted because cosine similarity is invariant under positive scaling of
  either argument, so it does not change any score.
* `sklearn.metrics.pairwise.cosine_similarity` divides the dot product by the
  product of the Euclidean norms, with a zero norm replaced so that a zero
  vector yields score 0.  Since the norms involve square roots, the score is
  embedded as its *square* `simSq` (with the same zero-guard): squaring is a
  strictly monotone bijection of `[0, ∞)`, so the ranking, the tie structure
  and the zero set of the scores — everything the specification's claims
  depend on — are identical.
* Python's `sorted(·, key=lambda x: x[1], reverse=True)` is a stable sort:
  descending in the key, and elements with equal keys keep their original
  relative order (the Python documentation guarantees stability also with
  `reverse=True`).  A stable sort is uniquely determined extensionally, so it
  is modelled by the stable insertion sort `pySorted`.
-/

/-- Strings from the Python source, as lists of characters. -/
abbrev Str := List Char

/-- Vectorizer tokens (same representation as strings). -/
abbrev Token := List Char

/-- The six ASCII whitespace characters matched by the regex class `\s`
and by `str.split()`. -/
def isPySpace (c : Char) : Bool :=
  c = ' ' || c = '\t' || c = '\n' || c = '\r' || c = Char.ofNat 11 || c = Char.ofNat 12

/-- Characters kept by `re.sub(r'[^a-z0-9\s]', '', text)`. -/
def isKeepChar (c : Char) : Bool :=
  (decide ('a' ≤ c) && decide (c ≤ 'z')) || (decide ('0' ≤ c) && decide (c ≤ '9')) || isPySpace c

/-- `text.lower()`, per character (faithful on ASCII). -/
def pyLower (s : Str) : Str := s.map Char.toLower

/-- `re.sub(r'[^a-z0-9\s]', '', text)`: drop every character outside
`[a-z0-9]` and whitespace. -/
def pyStrip (s : Str) : Str := s.filter isKeepChar

/-- Worker for `pySplit`: `cur` holds the reversed current word. -/
def pySplitGo (cur : List Char) : Str → List Str
  | [] => if cur = [] then [] else [cur.reverse]
  | c :: cs =>
    if isPySpace c then
      if cur = [] then pySplitGo [] cs else cur.reverse :: pySplitGo [] cs
    else pySplitGo (c :: cur) cs

/-- `text.split()`: split on runs of whitespace, discarding empty chunks. -/
def pySplit (s : Str) : List Str := pySplitGo [] s

/-- `' '.join(words)`. -/
def joinSp : List Str → Str
  | [] => []
  | [w] => w
  | w :: ws => w ++ ' ' :: joinSp ws

/-- A one-character string holding an ASCII apostrophe (codepoint 39). -/
def apo : String := String.mk [Char.ofNat 39]

/-- The NLTK English stopword list used by `stopwords.words('english')`. -/
def nltkStopStrings : List String :=
  ["i", "me", "my", "myself", "we", "our", "ours", "ourselves", "you",
   "you" ++ apo ++ "re", "you" ++ apo ++ "ve", "you" ++ apo ++ "ll",
   "you" ++ apo ++ "d", "your", "yours", "yourself", "yourselves", "he",
   "him", "his", "himself", "she", "she" ++ apo ++ "s", "her", "hers",
   "herself", "it", "it" ++ apo ++ "s", "its", "itself", "they", "them",
   "their", "theirs", "themselves", "what", "which", "who", "whom", "this",
   "that", "that" ++ apo ++ "ll", "these", "those", "am", "is", "are", "was",
   "were", "be", "been", "being", "have", "has", "had", "having", "do",
   "does", "did", "doing", "a", "an", "the", "and", "but", "if", "or",
   "because", "as", "until", "while", "of", "at", "by", "for", "with",
   "about", "against", "between", "into", "through", "during", "before",
   "after", "above", "below", "to", "from", "up", "down", "in", "out", "on",
   "off", "over", "under", "again", "further", "then", "once", "here",
   "there", "when", "where", "why", "how", "all", "any", "both", "each",
   "few", "more", "most", "other", "some", "such", "no", "nor", "not",
   "only", "own", "same", "so", "than", "too", "very", "s", "t", "can",
   "will", "just", "don", "don" ++ apo ++ "t", "should",
   "should" ++ apo ++ "ve", "now", "d", "ll", "m", "o", "re", "ve", "y",
   "ain", "aren", "aren" ++ apo ++ "t", "couldn", "couldn" ++ apo ++ "t",
   "didn", "didn" ++ apo ++ "t", "doesn", "doesn" ++ apo ++ "t", "hadn",
   "hadn" ++ apo ++ "t", "hasn", "hasn" ++ apo ++ "t", "haven",
   "haven" ++ apo ++ "t", "isn", "isn" ++ apo ++ "t", "ma", "mightn",
   "mightn" ++ apo ++ "t", "mustn", "mustn" ++ apo ++ "t", "needn",
   "needn" ++ apo ++ "t", "shan", "shan" ++ apo ++ "t", "shouldn",
   "shouldn" ++ apo ++ "t", "wasn", "wasn" ++ apo ++ "t", "weren",
   "weren" ++ apo ++ "t", "won", "won" ++ apo ++ "t", "wouldn",
   "wouldn" ++ apo ++ "t"]

/-- NLTK English stopwords as character lists. -/
def nltkStop : List Str := nltkStopStrings.map String.toList

/-- `clean_text` from `load_and_preprocess_data` (lines 44–51): lowercase,
strip characters outside `[a-z0-9\s]`, remove NLTK English stopwords, and
re-join the surviving tokens with single spaces. -/
def clean_text (text : Str) : Str :=
  joinSp ((pySplit (pyStrip (pyLower text))).filter (fun w => !decide (w ∈ nltkStop)))

/-- The inline preprocessing of the user query in `get_recommendations`
(lines 87–89): lowercase, strip, NLTK stopword removal, re-join — written
out separately because the source duplicates the code rather than calling
`clean_text`. -/
def preprocess_user_storyline (user_storyline : Str) : Str :=
  joinSp ((pySplit (pyStrip (pyLower user_storyline))).filter (fun w => !decide (w ∈ nltkStop)))

/-- scikit-learn's built-in `ENGLISH_STOP_WORDS`, enabled by
`TfidfVectorizer(stop_words='english')` (line 59). -/
def sklearnStopStrings : List String :=
  ["a", "about", "above", "across", "after", "afterwards", "again",
   "against", "all", "almost", "alone", "along", "already", "also",
   "although", "always", "am", "among", "amongst", "amoungst", "amount",
   "an", "and", "another", "any", "anyhow", "anyone", "anything", "anyway",
   "anywhere", "are", "around", "as", "at", "back", "be", "became",
   "because", "become", "becomes", "becoming", "been", "before",
   "beforehand", "behind", "being", "below", "beside", "besides",
   "between", "beyond", "bill", "both", "bottom", "but", "by", "call",
   "can", "cannot", "cant", "co", "con", "could", "couldnt", "cry", "de",
   "describe", "detail", "do", "done", "down", "due", "during", "each",
   "eg", "eight", "either", "eleven", "else", "elsewhere", "empty",
   "enough", "etc", "even", "ever", "every", "everyone", "everything",
   "everywhere", "except", "few", "fifteen", "fifty", "fill", "find",
   "fire", "first", "five", "for", "former", "formerly", "forty", "found",
   "four", "from", "front", "full", "further", "get", "give", "go", "had",
   "has", "hasnt", "have", "he", "hence", "her", "here", "hereafter",
   "hereby", "herein", "hereupon", "hers", "herself", "him", "himself",
   "his", "how", "however", "hundred", "i", "ie", "if", "in", "inc",
   "indeed", "interest", "into", "is", "it", "its", "itself", "keep",
   "last", "latter", "latterly", "least", "less", "ltd", "made", "many",
   "may", "me", "meanwhile", "might", "mill", "mine", "more", "moreover",
   "most", "mostly", "move", "much", "must", "my", "myself", "name",
   "namely", "neither", "never", "nevertheless", "next", "nine", "no",
   "nobody", "none", "noone", "nor", "not", "nothing", "now", "nowhere",
   "of", "off", "often", "on", "once", "one", "only", "onto", "or",
   "other", "others", "otherwise", "our", "ours", "ourselves", "out",
   "over", "own", "part", "per", "perhaps", "please", "put", "rather",
   "re", "same", "see", "seem", "seemed", "seeming", "seems", "serious",
   "several", "she", "should", "show", "side", "since", "sincere", "six",
   "sixty", "so", "some", "somehow", "someone", "something", "sometime",
   "sometimes", "somewhere", "still", "such", "system", "take", "ten",
   "than", "that", "the", "their", "them", "themselves", "then", "thence",
   "there", "thereafter", "thereby", "therefore", "therein", "thereupon",
   "these", "they", "thick", "thin", "third", "this", "those", "though",
   "three", "through", "throughout", "thru", "thus", "to", "together",
   "too", "top", "toward", "towards", "twelve", "twenty", "two", "un",
   "under", "until", "up", "upon", "us", "very", "via", "was", "we",
   "well", "were", "what", "whatever", "when", "whence", "whenever",
   "where", "whereafter", "whereas", "whereby", "wherein", "whereupon",
   "wherever", "whether", "which", "while", "whither", "who", "whoever",
   "whole", "whom", "whose", "why", "will", "with", "within", "without",
   "would", "yet", "you", "your", "yours", "yourself", "yourselves"]

/-- scikit-learn English stopwords as character lists. -/
def sklearnStop : List Str := sklearnStopStrings.map String.toList

/-- The tokens a string contributes to the vectorizer: the default token
pattern `(?u)\b\w\w+\b` keeps only alphanumeric runs of length ≥ 2 (on the
already-cleaned strings fed to the vectorizer, the word tokens are exactly
the whitespace-split chunks), and `stop_words='english'` then removes
scikit-learn's stop list. -/
def vectTokens (s : Str) : List Token :=
  ((pySplit s).filter (fun w => decide (2 ≤ w.length))).filter
    (fun w => !decide (w ∈ sklearnStop))

/-- Document frequency of a term over the corpus rows. -/
def docFreq (ctx : List (List Token)) (t : Token) : ℕ :=
  (ctx.filter (fun d => decide (t ∈ d))).length

/-- The fitted vocabulary: every token occurring in some corpus row, each
once.  (scikit-learn additionally sorts it alphabetically; the order never
matters below because the vocabulary is only summed over.) -/
def vocabOf (rows : List (List Token)) : List Token := rows.flatten.dedup

/-- The tf–idf weight of term `t` for a token list `toks`, with the corpus
`ctx` supplying the idf statistics: raw term count times
`idf (number of documents) (document frequency)`.  The real engine uses
`idf n df = ln ((1+n)/(1+df)) + 1`, which is transcendental, so `idf` is an
abstract parameter here; all theorems hold for every choice.  The final L2
row normalisation is dropped: cosine similarity is scale-invariant, so no
score changes. -/
def tfidfWeight (idf : ℕ → ℕ → ℚ) (ctx : List (List Token)) (toks : List Token) (t : Token) : ℚ :=
  (toks.count t : ℚ) * idf ctx.length (docFreq ctx t)

/-- Dot product of the tf–idf vectors of `a` and `b` over the fitted
vocabulary.  Query terms outside the vocabulary contribute nothing (they are
simply not summed over), exactly as `transform` drops out-of-vocabulary
terms. -/
def dotW (idf : ℕ → ℕ → ℚ) (ctx : List (List Token)) (a b : List Token) : ℚ :=
  ((vocabOf ctx).map (fun t => tfidfWeight idf ctx a t * tfidfWeight idf ctx b t)).sum

/-- The *squared* cosine similarity of the tf–idf vectors of `a` and `b`.
`cosine_similarity` returns `dot/(‖a‖·‖b‖)`, with a zero norm replaced so
that a zero vector scores 0.  The square keeps the value in `ℚ`; since all
scores are non-negative and squaring is strictly monotone on `[0, ∞)`, the
ranking, ties and zero scores are the same as for the unsquared value. -/
def simSq (idf : ℕ → ℕ → ℚ) (ctx : List (List Token)) (a b : List Token) : ℚ :=
  if dotW idf ctx a a = 0 ∨ dotW idf ctx b b = 0 then 0
  else (dotW idf ctx a b) ^ 2 / (dotW idf ctx a a * dotW idf ctx b b)

/-- One row of the corpus CSV as pandas sees it after `read_csv`: the
`Movie Name` field and the `Storyline` field, the latter `none` when the CSV
cell is absent or empty (pandas reads both as NaN). -/
structure Record where
  name : Str
  storyline : Option Str
deriving DecidableEq, Repr

/-- One row of `movies_df` after the load: the original columns plus the
derived `Cleaned Storyline` column. -/
structure Movie where
  name : Str
  storyline : Str
  cleaned : Str
deriving DecidableEq, Repr

instance : Inhabited Movie := ⟨⟨[], [], []⟩⟩

/-- The module-level `tfidf_vectorizer`: `TfidfVectorizer(...)` is first
assigned unfitted (line 59); a successful `fit_transform` (line 62) fits it
to the cleaned corpus, recorded here as the token rows it was fitted on
(vocabulary, document frequencies and idf weights are all derived from
them). -/
inductive Vect where
  | unfitted : Vect
  | fitted : List (List Token) → Vect
deriving DecidableEq, Repr

/-- The three module-level globals of `recommendation_engine.py`
(`movies_df`, `tfidf_vectorizer`, `tfidf_matrix`), each `None` until first
assigned.  The matrix is recorded as the token rows it holds the tf–idf
vectors of (the numeric entries are derived from those rows). -/
structure EngineState where
  movies_df : Option (List Movie)
  tfidf_vectorizer : Option Vect
  tfidf_matrix : Option (List (List Token))
deriving DecidableEq, Repr

/-- The state at process start: all three globals are `None`. -/
def initState : EngineState := ⟨none, none, none⟩

/-- The `movies_df` rows a record list yields: `dropna(subset=['Storyline'])`
keeps the records whose storyline is present, and `clean_text` fills the
`Cleaned Storyline` column. -/
def docsOf (records : List Record) : List Movie :=
  (records.filter (fun r => r.storyline.isSome)).map
    (fun r => ⟨r.name, r.storyline.getD [], clean_text (r.storyline.getD [])⟩)

/-- The token rows `fit_transform` builds from the cleaned storylines. -/
def rowsOf (records : List Record) : List (List Token) :=
  (docsOf records).map (fun d => vectTokens d.cleaned)

/-- The fully-built state a successful load publishes. -/
def builtFrom (records : List Record) : EngineState :=
  ⟨some (docsOf records), some (Vect.fitted (rowsOf records)), some (rowsOf records)⟩

/-- `load_and_preprocess_data` (lines 27–74) as a state transformer.  The
corpus source is `none` when `pd.read_csv` raises (file missing or
unreadable), in which case the raised exception reaches the handler before
any global is assigned.  After a successful read the function assigns
`movies_df` (with the cleaned column) and a fresh unfitted
`tfidf_vectorizer`; `fit_transform` then raises ValueError exactly when the
resulting vocabulary is empty (no documents, or only stopword/short tokens),
which the generic handler turns into `False` — leaving the two freshly
assigned globals in place and `tfidf_matrix` at its previous value.
Otherwise all three globals are published and the function returns `True`. -/
def load_and_preprocess_data (src : Option (List Record)) (s : EngineState) :
    EngineState × Bool :=
  match src with
  | none => (s, false)
  | some records =>
    if vocabOf (rowsOf records) = [] then
      (⟨some (docsOf records), some Vect.unfitted, s.tfidf_matrix⟩, false)
    else (builtFrom records, true)

/-- `RECOMMENDATION_COUNT` (line 21). -/
def RECOMMENDATION_COUNT : ℕ := 5

/-- Insert one scored entry into an already-sorted list: it goes after every
entry whose score is at least as large (entries already in the list come
earlier in the original order). -/
def insortDesc (x : ℕ × ℚ) : List (ℕ × ℚ) → List (ℕ × ℚ)
  | [] => [x]
  | y :: ys => if x.2 ≤ y.2 then y :: insortDesc x ys else x :: y :: ys

/-- `sorted(entries, key=lambda x: x[1], reverse=True)`: Python's sort is
stable (also with `reverse=True`), i.e. descending in the score with entries
of equal score keeping their original order.  A stable sort is extensionally
unique, so this stable insertion sort computes the same function as
Timsort. -/
def pySorted (l : List (ℕ × ℚ)) : List (ℕ × ℚ) :=
  l.foldl (fun acc x => insortDesc x acc) []

/-- `list(enumerate(cosine_sim[0]))` (line 103): each matrix row index paired
with the (squared) cosine similarity of the query against that row. -/
def similarity_scores (idf : ℕ → ℕ → ℚ) (ctx : List (List Token))
    (qtoks : List Token) (mat : List (List Token)) : List (ℕ × ℚ) :=
  (mat.map (fun row => simSq idf ctx qtoks row)).enum

/-- `get_recommendations` (lines 77–112).  Returns `none` when the Python
function would raise (`transform` on an unfitted vectorizer, or `iloc` out of
range) and `some results` otherwise.  If any of the three globals is `None`
it returns the empty list; otherwise it cleans the query exactly as the
documents were cleaned, vectorizes it, scores every matrix row, sorts
descending (stable), takes the first `RECOMMENDATION_COUNT` indices and
returns those rows' `Movie Name` and `Storyline` fields. -/
def get_recommendations (idf : ℕ → ℕ → ℚ) (s : EngineState) (user_storyline : Str) :
    Option (List (Str × Str)) :=
  match s.movies_df, s.tfidf_vectorizer, s.tfidf_matrix with
  | some df, some v, some mat =>
    match v with
    | Vect.unfitted => none
    | Vect.fitted ctx =>
      let qtoks := vectTokens (preprocess_user_storyline user_storyline)
      let ranked := pySorted (similarity_scores idf ctx qtoks mat)
      let top_indices := (ranked.take RECOMMENDATION_COUNT).map Prod.fst
      if top_indices.all (fun i => decide (i < df.length)) then
        some (top_indices.map (fun i => ((df.getD i default).name, (df.getD i default).storyline)))
      else none
  | _, _, _ => some []

/-- A constant idf, used to instantiate witnesses. -/
def oneIdf : ℕ → ℕ → ℚ := fun _ _ => 1

/-- Demo corpus from the specification's concrete scenario (§8). -/
def demoRecords : List Record :=
  [⟨"A".toList, some "a wizard battles a dragon".toList⟩,
   ⟨"B".toList, some "a detective solves a murder".toList⟩]

/-- The record a returned recommendation is built from: the `Movie Name` and
`Storyline` columns of row `i` of `movies_df` (line 110). -/
def recordOf (df : List Movie) (i : ℕ) : Str × Str :=
  ((df.getD i default).name, (df.getD i default).storyline)

/-- The full ranking `get_recommendations` computes over a successfully
built index: every matrix row scored against the cleaned query, stably
sorted by descending score. -/
def rankedScores (idf : ℕ → ℕ → ℚ) (recs : List Record) (user : Str) : List (ℕ × ℚ) :=
  pySorted (similarity_scores idf (rowsOf recs)
    (vectTokens (preprocess_user_storyline user)) (rowsOf recs))

/-- The order the ranking is sorted in: strictly larger score first, and on
exactly equal scores the smaller (earlier) index first. -/
def RankedBefore (a b : ℕ × ℚ) : Prop := b.2 ≤ a.2 ∧ (a.2 = b.2 → a.1 < b.1)

/-- States reachable from `s` through failed builds only — i.e. "before a
successful build occurs". -/
inductive FailedBuilds : EngineState → EngineState → Prop where
  | refl (s : EngineState) : FailedBuilds s s
  | step {s t u : EngineState} (src : Option (List Record)) :
      FailedBuilds s t → load_and_preprocess_data src t = (u, false) → FailedBuilds s u

/-- A corpus with one usable record and one record whose storyline cell is
absent/empty (NaN after read). -/
def mixedRecords : List Record :=
  [⟨"A".toList, some "a wizard battles a dragon".toList⟩, ⟨"C".toList, none⟩]

example : clean_text "A Wizard, battles the Dragon!".toList = "wizard battles dragon".toList := by
  decide

example : preprocess_user_storyline "  ".toList = [] := by decide

example : vectTokens (clean_text "A Wizard, battles the Dragon!".toList) =
    ["wizard".toList, "battles".toList, "dragon".toList] := by decide

example : (load_and_preprocess_data (some demoRecords) initState).2 = true := by decide

/-! ## Lemmas about splitting and joining -/

theorem pySplitGo_ne_nil : ∀ (s : Str) (cur : List Char), ∀ w ∈ pySplitGo cur s, w ≠ []
  | [], cur => by
    intro w hw
    simp only [pySplitGo] at hw
    split at hw
    · simp at hw
    · rename_i h
      simp only [List.mem_singleton] at hw
      subst hw
      simpa using h
  | c :: cs, cur => by
    intro w hw
    simp only [pySplitGo] at hw
    split at hw
    · split at hw
      · exact pySplitGo_ne_nil cs [] w hw
      · rename_i h
        rcases List.mem_cons.mp hw with rfl | hw'
        · simpa using h
        · exact pySplitGo_ne_nil cs [] w hw'
    · exact pySplitGo_ne_nil cs (c :: cur) w hw

theorem pySplit_ne_nil (s : Str) : ∀ w ∈ pySplit s, w ≠ [] :=
  pySplitGo_ne_nil s []

theorem pySplitGo_nonspace :
    ∀ (s : Str) (cur : List Char), (∀ c ∈ cur, isPySpace c = false) →
      ∀ w ∈ pySplitGo cur s, ∀ c ∈ w, isPySpace c = false
  | [], cur => by
    intro hcur w hw
    simp only [pySplitGo] at hw
    split at hw
    · simp at hw
    · simp only [List.mem_singleton] at hw
      subst hw
      intro c hc
      exact hcur c (by simpa using hc)
  | c :: cs, cur => by
    intro hcur w hw
    simp only [pySplitGo] at hw
    split at hw
    · split at hw
      · exact pySplitGo_nonspace cs [] (by simp) w hw
      · rcases List.mem_cons.mp hw with rfl | hw'
        · intro d hd
          exact hcur d (by simpa using hd)
        · exact pySplitGo_nonspace cs [] (by simp) w hw'
    · rename_i hc
      refine pySplitGo_nonspace cs (c :: cur) ?_ w hw
      intro e he
      rcases List.mem_cons.mp he with rfl | he'
      · simpa using hc
      · exact hcur e he'

theorem pySplit_nonspace (s : Str) : ∀ w ∈ pySplit s, ∀ c ∈ w, isPySpace c = false :=
  pySplitGo_nonspace s [] (by simp)

theorem pySplitGo_word :
    ∀ (w : Str) (cur : List Char) (s : Str), (∀ c ∈ w, isPySpace c = false) →
      pySplitGo cur (w ++ s) = pySplitGo (w.reverse ++ cur) s
  | [], cur, s => by intro _; simp
  | c :: ws, cur, s => by
    intro h
    have hc : isPySpace c = false := h c (by simp)
    have h1 : pySplitGo cur ((c :: ws) ++ s) = pySplitGo (c :: cur) (ws ++ s) := by
      show pySplitGo cur (c :: (ws ++ s)) = _
      simp [pySplitGo, hc]
    rw [h1, pySplitGo_word ws (c :: cur) s (fun d hd => h d (List.mem_cons_of_mem c hd))]
    congr 1
    simp

theorem pySplitGo_all_space :
    ∀ (s : Str), (∀ c ∈ s, isPySpace c = true) → pySplitGo [] s = []
  | [] => by intro _; rfl
  | c :: cs => by
    intro h
    have hc : isPySpace c = true := h c (by simp)
    show pySplitGo [] (c :: cs) = []
    have h1 : pySplitGo [] (c :: cs) = pySplitGo [] cs := by
      simp [pySplitGo, hc]
    rw [h1]
    exact pySplitGo_all_space cs fun d hd => h d (List.mem_cons_of_mem c hd)

theorem pySplit_all_space (s : Str) (h : ∀ c ∈ s, isPySpace c = true) : pySplit s = [] :=
  pySplitGo_all_space s h

/-- Splitting is left inverse to joining, for non-empty space-free words:
re-tokenizing a cleaned string recovers exactly the word list it was joined
from. -/
theorem pySplit_joinSp :
    ∀ ws : List Str, (∀ w ∈ ws, w ≠ []) → (∀ w ∈ ws, ∀ c ∈ w, isPySpace c = false) →
      pySplit (joinSp ws) = ws
  | [] => by intro _ _; rfl
  | [w] => by
    intro h1 h2
    have hw : w ≠ [] := h1 w (by simp)
    have h3 := pySplitGo_word w [] [] (h2 w (by simp))
    rw [List.append_nil] at h3
    have h4 : joinSp [w] = w := rfl
    show pySplit (joinSp [w]) = [w]
    rw [h4]
    show pySplitGo [] w = [w]
    rw [h3, List.append_nil]
    simp [pySplitGo, hw]
  | w :: w' :: ws => by
    intro h1 h2
    show pySplitGo [] (w ++ ' ' :: joinSp (w' :: ws)) = w :: w' :: ws
    rw [pySplitGo_word w [] _ (h2 w (by simp)), List.append_nil]
    have hw : w.reverse ≠ [] := by
      simp [h1 w (by simp)]
    have h5 : pySplitGo w.reverse (' ' :: joinSp (w' :: ws)) =
        w.reverse.reverse :: pySplitGo [] (joinSp (w' :: ws)) := by
      simp [pySplitGo, hw, show isPySpace ' ' = true from rfl]
    have h6 : pySplitGo [] (joinSp (w' :: ws)) = w' :: ws :=
      pySplit_joinSp (w' :: ws) (fun u hu => h1 u (List.mem_cons_of_mem w hu))
        (fun u hu => h2 u (List.mem_cons_of_mem w hu))
    rw [h5, List.reverse_reverse, h6]

/-- The tokens the vectorizer extracts from a cleaned string: the
whitespace-split tokens of the lowercased, stripped input that survive the
NLTK stop list, the length ≥ 2 token pattern, and the scikit-learn stop
list. -/
theorem vectTokens_clean_text (s : Str) :
    vectTokens (clean_text s) =
      (((pySplit (pyStrip (pyLower s))).filter (fun w => !decide (w ∈ nltkStop))).filter
        (fun w => decide (2 ≤ w.length))).filter (fun w => !decide (w ∈ sklearnStop)) := by
  unfold vectTokens clean_text
  rw [pySplit_joinSp]
  · intro w hw
    exact pySplit_ne_nil _ w (List.mem_of_mem_filter hw)
  · intro w hw
    exact pySplit_nonspace _ w (List.mem_of_mem_filter hw)

/-- Membership form of `vectTokens_clean_text`: a token of the stripped text
survives into the vectorizer input iff it avoids the NLTK stop list, has
length at least 2, and avoids the scikit-learn stop list. -/
theorem mem_vectTokens_clean_text (s : Str) (t : Token) :
    t ∈ vectTokens (clean_text s) ↔
      t ∈ pySplit (pyStrip (pyLower s)) ∧ t ∉ nltkStop ∧ 2 ≤ t.length ∧ t ∉ sklearnStop := by
  rw [vectTokens_clean_text]
  simp only [List.mem_filter, Bool.not_eq_true', decide_eq_false_iff_not, decide_eq_true_eq]
  tauto

/-! ## Lemmas about the stable descending sort -/

theorem insortDesc_perm (x : ℕ × ℚ) : ∀ l : List (ℕ × ℚ), (insortDesc x l).Perm (x :: l)
  | [] => List.Perm.refl _
  | y :: ys => by
    show (if x.2 ≤ y.2 then y :: insortDesc x ys else x :: y :: ys).Perm _
    split
    · exact ((insortDesc_perm x ys).cons y).trans (List.Perm.swap x y ys)
    · exact List.Perm.refl _

theorem pySorted_go_perm :
    ∀ (l acc : List (ℕ × ℚ)), (l.foldl (fun acc x => insortDesc x acc) acc).Perm (acc ++ l)
  | [], acc => by simp
  | x :: xs, acc => by
    show (xs.foldl (fun acc x => insortDesc x acc) (insortDesc x acc)).Perm _
    refine (pySorted_go_perm xs (insortDesc x acc)).trans ?_
    refine (((insortDesc_perm x acc).append_right xs).trans ?_)
    exact List.perm_middle.symm

theorem pySorted_perm (l : List (ℕ × ℚ)) : (pySorted l).Perm l :=
  pySorted_go_perm l []

theorem insortDesc_pairwise {x : ℕ × ℚ} :
    ∀ {l : List (ℕ × ℚ)}, l.Pairwise RankedBefore → (∀ y ∈ l, y.1 < x.1) →
      (insortDesc x l).Pairwise RankedBefore
  | [], _, _ => List.pairwise_singleton _ _
  | y :: ys, hl, hx => by
    rcases List.pairwise_cons.mp hl with ⟨hy, hys⟩
    show (if x.2 ≤ y.2 then y :: insortDesc x ys else x :: y :: ys).Pairwise RankedBefore
    split
    · rename_i hle
      refine List.pairwise_cons.mpr ⟨?_, insortDesc_pairwise hys
        (fun z hz => hx z (List.mem_cons_of_mem y hz))⟩
      intro z hz
      rcases List.mem_cons.mp ((insortDesc_perm x ys).mem_iff.mp hz) with hz' | hz'
      · subst hz'
        exact ⟨hle, fun _ => hx y (List.mem_cons_self y ys)⟩
      · exact hy z hz'
    · rename_i hlt
      push_neg at hlt
      refine List.pairwise_cons.mpr ⟨?_, hl⟩
      intro z hz
      rcases List.mem_cons.mp hz with rfl | hz'
      · exact ⟨le_of_lt hlt, fun h => absurd h (ne_of_gt hlt)⟩
      · have := (hy z hz').1
        exact ⟨le_of_lt (lt_of_le_of_lt this hlt), fun h => absurd h (ne_of_gt
          (lt_of_le_of_lt this hlt))⟩

theorem pySorted_go_pairwise :
    ∀ (l acc : List (ℕ × ℚ)), acc.Pairwise RankedBefore →
      (∀ y ∈ acc, ∀ x ∈ l, y.1 < x.1) → l.Pairwise (fun a b => a.1 < b.1) →
      (l.foldl (fun acc x => insortDesc x acc) acc).Pairwise RankedBefore
  | [], acc, hacc, _, _ => hacc
  | x :: xs, acc, hacc, hcross, hl => by
    show (xs.foldl (fun acc x => insortDesc x acc) (insortDesc x acc)).Pairwise RankedBefore
    rcases List.pairwise_cons.mp hl with ⟨hx, hxs⟩
    refine pySorted_go_pairwise xs (insortDesc x acc)
      (insortDesc_pairwise hacc (fun y hy => hcross y hy x (List.mem_cons_self x xs)))
      ?_ hxs
    intro y hy z hz
    rcases List.mem_cons.mp ((insortDesc_perm x acc).mem_iff.mp hy) with hy' | hy'
    · subst hy'
      exact hx z hz
    · exact hcross y hy' z (List.mem_cons_of_mem x hz)

/-- The ranking produced by the stable descending sort on distinct-index
input is pairwise `RankedBefore`: scores descend, and ties keep the smaller
index first. -/
theorem pySorted_pairwise {l : List (ℕ × ℚ)} (hl : l.Pairwise fun a b => a.1 < b.1) :
    (pySorted l).Pairwise RankedBefore :=
  pySorted_go_pairwise l [] (List.Pairwise.nil) (by simp) hl

theorem insortDesc_of_le {x : ℕ × ℚ} :
    ∀ {l : List (ℕ × ℚ)}, (∀ y ∈ l, x.2 ≤ y.2) → insortDesc x l = l ++ [x]
  | [], _ => rfl
  | y :: ys, h => by
    show (if x.2 ≤ y.2 then y :: insortDesc x ys else x :: y :: ys) = _
    rw [if_pos (h y (List.mem_cons_self y ys))]
    rw [insortDesc_of_le (fun z hz => h z (List.mem_cons_of_mem y hz))]
    rfl

theorem pySorted_go_const (c : ℚ) :
    ∀ (l acc : List (ℕ × ℚ)), (∀ p ∈ l, p.2 = c) → (∀ p ∈ acc, p.2 = c) →
      l.foldl (fun acc x => insortDesc x acc) acc = acc ++ l
  | [], acc, _, _ => by simp
  | x :: xs, acc, hl, hacc => by
    show xs.foldl (fun acc x => insortDesc x acc) (insortDesc x acc) = _
    have h1 : insortDesc x acc = acc ++ [x] := by
      refine insortDesc_of_le fun y hy => ?_
      rw [hl x (List.mem_cons_self x xs), hacc y hy]
    rw [h1, pySorted_go_const c xs (acc ++ [x]) (fun p hp => hl p (List.mem_cons_of_mem x hp))
      (by
        intro p hp
        rcases List.mem_append.mp hp with hp' | hp'
        · exact hacc p hp'
        · rw [List.mem_singleton.mp hp']
          exact hl x (List.mem_cons_self x xs))]
    simp

/-- A stable sort of an all-tied list is the identity: with every score
equal, the original order is kept. -/
theorem pySorted_const {l : List (ℕ × ℚ)} {c : ℚ} (h : ∀ p ∈ l, p.2 = c) : pySorted l = l :=
  pySorted_go_const c l [] h (by simp)

/-! ## Lemmas about the similarity scores -/

theorem list_sum_sq_nonneg (l : List Token) (f : Token → ℚ) :
    0 ≤ ((l.map fun t => f t * f t).sum) := by
  refine List.sum_nonneg ?_
  intro x hx
  rcases List.mem_map.mp hx with ⟨t, _, rfl⟩
  exact mul_self_nonneg (f t)

theorem list_sum_sq_eq_zero {l : List Token} {f : Token → ℚ}
    (h : ((l.map fun t => f t * f t).sum) = 0) : ∀ t ∈ l, f t = 0 := by
  induction l with
  | nil => simp
  | cons a l ih =>
    simp only [List.map_cons, List.sum_cons] at h
    have h1 : 0 ≤ f a * f a := mul_self_nonneg _
    have h2 : 0 ≤ ((l.map fun t => f t * f t).sum) := list_sum_sq_nonneg l f
    have ha : f a * f a = 0 := by linarith
    have hrest : ((l.map fun t => f t * f t).sum) = 0 := by linarith
    intro t ht
    rcases List.mem_cons.mp ht with rfl | ht'
    · exact mul_self_eq_zero.mp ha
    · exact ih hrest t ht'

/-- Cauchy–Schwarz for sums over a token list. -/
theorem list_inner_sq_le (l : List Token) (f g : Token → ℚ) :
    ((l.map fun t => f t * g t).sum) ^ 2 ≤
      ((l.map fun t => f t * f t).sum) * ((l.map fun t => g t * g t).sum) := by
  have key : ∀ h : Token → ℚ, (l.map h).sum = ∑ i : Fin l.length, h (l.get i) := by
    intro h
    conv_lhs => rw [← List.ofFn_get l]
    rw [List.map_ofFn, List.sum_ofFn]
    rfl
  rw [key, key, key]
  have := Finset.sum_mul_sq_le_sq_mul_sq Finset.univ (fun i : Fin l.length => f (l.get i))
    (fun i : Fin l.length => g (l.get i))
  calc (∑ i : Fin l.length, (fun t => f t * g t) (l.get i)) ^ 2
      = (∑ i : Fin l.length, f (l.get i) * g (l.get i)) ^ 2 := rfl
    _ ≤ (∑ i : Fin l.length, f (l.get i) ^ 2) * ∑ i : Fin l.length, g (l.get i) ^ 2 := this
    _ = (∑ i : Fin l.length, (fun t => f t * f t) (l.get i)) *
          ∑ i : Fin l.length, (fun t => g t * g t) (l.get i) := by
        simp [pow_two]

theorem dotW_self_nonneg (idf : ℕ → ℕ → ℚ) (ctx : List (List Token)) (a : List Token) :
    0 ≤ dotW idf ctx a a :=
  list_sum_sq_nonneg (vocabOf ctx) (tfidfWeight idf ctx a)

/-- A vector with zero self-dot-product is the zero vector, so its dot
product with anything is zero. -/
theorem dotW_eq_zero_left {idf : ℕ → ℕ → ℚ} {ctx : List (List Token)} {a : List Token}
    (h : dotW idf ctx a a = 0) (b : List Token) : dotW idf ctx a b = 0 := by
  have hz := @list_sum_sq_eq_zero (vocabOf ctx) (tfidfWeight idf ctx a) h
  refine List.sum_eq_zero ?_
  intro x hx
  rcases List.mem_map.mp hx with ⟨t, ht, rfl⟩
  rw [hz t ht, zero_mul]

/-- Cauchy–Schwarz for the tf–idf dot products. -/
theorem dotW_sq_le (idf : ℕ → ℕ → ℚ) (ctx : List (List Token)) (a b : List Token) :
    (dotW idf ctx a b) ^ 2 ≤ dotW idf ctx a a * dotW idf ctx b b :=
  list_inner_sq_le (vocabOf ctx) (tfidfWeight idf ctx a) (tfidfWeight idf ctx b)

/-- A zero-norm side forces score zero (the zero-guard of
`cosine_similarity`). -/
theorem simSq_eq_zero {idf : ℕ → ℕ → ℚ} {ctx : List (List Token)} {a b : List Token}
    (h : dotW idf ctx a a = 0 ∨ dotW idf ctx b b = 0) : simSq idf ctx a b = 0 := by
  rw [simSq, if_pos h]

/-- Every score is at most the self-similarity score of the query. -/
theorem simSq_le_self (idf : ℕ → ℕ → ℚ) (ctx : List (List Token)) (a b : List Token) :
    simSq idf ctx a b ≤ simSq idf ctx a a := by
  by_cases ha : dotW idf ctx a a = 0
  · rw [simSq_eq_zero (Or.inl ha), simSq_eq_zero (Or.inl ha)]
  · have hsa : simSq idf ctx a a = 1 := by
      rw [simSq, if_neg (by tauto)]
      rw [pow_two, div_self (mul_ne_zero ha ha)]
    rw [hsa]
    by_cases hb : dotW idf ctx b b = 0
    · rw [simSq_eq_zero (Or.inr hb)]
      norm_num
    · rw [simSq, if_neg (by tauto)]
      have hpa : 0 < dotW idf ctx a a := lt_of_le_of_ne (dotW_self_nonneg idf ctx a) (Ne.symm ha)
      have hpb : 0 < dotW idf ctx b b := lt_of_le_of_ne (dotW_self_nonneg idf ctx b) (Ne.symm hb)
      rw [div_le_one (mul_pos hpa hpb)]
      exact dotW_sq_le idf ctx a b

/-- Scores are non-negative (squared cosine). -/
theorem simSq_nonneg (idf : ℕ → ℕ → ℚ) (ctx : List (List Token)) (a b : List Token) :
    0 ≤ simSq idf ctx a b := by
  rw [simSq]
  split
  · exact le_refl 0
  · rename_i h
    push_neg at h
    have hpa : 0 < dotW idf ctx a a := lt_of_le_of_ne (dotW_self_nonneg idf ctx a) (Ne.symm h.1)
    have hpb : 0 < dotW idf ctx b b := lt_of_le_of_ne (dotW_self_nonneg idf ctx b) (Ne.symm h.2)
    exact div_nonneg (sq_nonneg _) (le_of_lt (mul_pos hpa hpb))

/-- The query tf–idf vector of an empty token list is zero. -/
theorem dotW_nil_left (idf : ℕ → ℕ → ℚ) (ctx : List (List Token)) (b : List Token) :
    dotW idf ctx [] b = 0 := by
  refine List.sum_eq_zero ?_
  intro x hx
  rcases List.mem_map.mp hx with ⟨t, _, rfl⟩
  rw [tfidfWeight]
  simp

/-- Indices in `l.enum` are strictly increasing. -/
theorem enum_pairwise_lt {α : Type} (l : List α) :
    l.enum.Pairwise fun a b => a.1 < b.1 := by
  have : ∀ (l : List α) (n : ℕ), (l.enumFrom n).Pairwise fun a b => a.1 < b.1 := by
    intro l
    induction l with
    | nil => intro n; simp
    | cons x xs ih =>
      intro n
      refine List.pairwise_cons.mpr ⟨?_, ih (n + 1)⟩
      intro z hz
      have := (List.mem_enumFrom hz).1
      omega
  exact this l 0

theorem mem_enum_fst_lt {α : Type} {l : List α} {p : ℕ × α} (h : p ∈ l.enum) :
    p.1 < l.length := by
  have := List.mem_enumFrom h
  omega

theorem mem_enum_getD {l : List ℚ} {p : ℕ × ℚ} (h : p ∈ l.enum) : l.getD p.1 0 = p.2 := by
  have h2 := List.mem_enum_iff_getElem?.mp h
  have h3 : p.1 < l.length := (List.getElem?_eq_some.mp h2).1
  rw [List.getD_eq_getElem l 0 h3]
  exact (List.getElem?_eq_some.mp h2).2

theorem getD_mem_enum {l : List ℚ} {i : ℕ} (h : i < l.length) : (i, l.getD i 0) ∈ l.enum := by
  rw [List.mem_enum_iff_getElem?]
  simp [List.getD_eq_getElem l 0 h, List.getElem?_eq_some, h]

/-! ## Lemmas about the load/query pipeline -/

theorem load_none (s : EngineState) : load_and_preprocess_data none s = (s, false) := rfl

theorem load_some (recs : List Record) (s : EngineState) :
    load_and_preprocess_data (some recs) s =
      if vocabOf (rowsOf recs) = [] then
        (⟨some (docsOf recs), some Vect.unfitted, s.tfidf_matrix⟩, false)
      else (builtFrom recs, true) := rfl

/-- Inversion of a successful build: the source was readable, the fitted
vocabulary is non-empty, and the published state is exactly `builtFrom` the
records — independent of the prior state. -/
theorem load_success {src : Option (List Record)} {s t : EngineState}
    (h : load_and_preprocess_data src s = (t, true)) :
    ∃ recs, src = some recs ∧ vocabOf (rowsOf recs) ≠ [] ∧ t = builtFrom recs := by
  cases src with
  | none =>
    rw [load_none] at h
    simp at h
  | some recs =>
    refine ⟨recs, rfl, ?_⟩
    rw [load_some] at h
    split at h
    · simp at h
    · rename_i hne
      injection h with h1 h2
      exact ⟨hne, h1.symm⟩

theorem rowsOf_length (recs : List Record) : (rowsOf recs).length = (docsOf recs).length :=
  List.length_map _ _

/-- Every entry of the ranking carries a valid row index and the score of
that row. -/
theorem rankedScores_mem {idf : ℕ → ℕ → ℚ} {recs : List Record} {user : Str} {p : ℕ × ℚ}
    (hp : p ∈ rankedScores idf recs user) :
    p.1 < (docsOf recs).length ∧
      p.2 = simSq idf (rowsOf recs) (vectTokens (preprocess_user_storyline user))
        ((rowsOf recs).getD p.1 []) := by
  have hp2 : p ∈ similarity_scores idf (rowsOf recs)
      (vectTokens (preprocess_user_storyline user)) (rowsOf recs) :=
    (pySorted_perm _).mem_iff.mp hp
  unfold similarity_scores at hp2
  have h1 := mem_enum_fst_lt hp2
  rw [List.length_map] at h1
  refine ⟨by rw [← rowsOf_length]; exact h1, ?_⟩
  have h2 := mem_enum_getD hp2
  rw [List.getD_eq_getElem _ _ (by simpa using h1)] at h2
  rw [List.getElem_map] at h2
  rw [← h2, List.getD_eq_getElem _ _ h1]

/-- What `get_recommendations` returns on a successfully built index: the
first `RECOMMENDATION_COUNT` entries of the stable descending ranking,
mapped to their movie records.  In particular it never raises. -/
theorem get_recommendations_built (idf : ℕ → ℕ → ℚ) (recs : List Record) (user : Str) :
    get_recommendations idf (builtFrom recs) user =
      some (((rankedScores idf recs user).take RECOMMENDATION_COUNT).map
        (fun p => recordOf (docsOf recs) p.1)) := by
  show (if ((pySorted _).take RECOMMENDATION_COUNT |>.map Prod.fst).all
      (fun i => decide (i < (docsOf recs).length)) = true then _ else _) = _
  rw [if_pos]
  · rw [List.map_map]
    rfl
  · rw [List.all_eq_true]
    intro i hi
    rcases List.mem_map.mp hi with ⟨p, hp, rfl⟩
    have hp2 : p ∈ rankedScores idf recs user := List.mem_of_mem_take hp
    exact decide_eq_true (rankedScores_mem hp2).1

/-- A failed build never assigns the matrix global. -/
theorem load_failed_matrix {src : Option (List Record)} {s t : EngineState}
    (h : load_and_preprocess_data src s = (t, false)) :
    t.tfidf_matrix = s.tfidf_matrix := by
  cases src with
  | none =>
    rw [load_none] at h
    injection h with h1 _
    rw [← h1]
  | some recs =>
    rw [load_some] at h
    split at h
    · injection h with h1 _
      rw [← h1]
    · simp at h

/-- With no matrix published, `get_recommendations` refuses and returns the
empty list. -/
theorem get_recommendations_no_matrix (idf : ℕ → ℕ → ℚ) {s : EngineState}
    (h : s.tfidf_matrix = none) (user : Str) :
    get_recommendations idf s user = some [] := by
  rcases s with ⟨df, v, m⟩
  simp only at h
  subst h
  cases df <;> cases v <;> rfl

/-- Failed builds propagate the matrix global unchanged. -/
theorem failedBuilds_matrix {s t : EngineState} (h : FailedBuilds s t) :
    t.tfidf_matrix = s.tfidf_matrix := by
  induction h with
  | refl => rfl
  | step src _ hload ih => rw [load_failed_matrix hload, ih]

theorem toLower_space {c : Char} (h : isPySpace c = true) : Char.toLower c = c := by
  have h2 : ((((c = ' ' ∨ c = '\t') ∨ c = '\n') ∨ c = '\r') ∨ c = Char.ofNat 11) ∨
      c = Char.ofNat 12 := by
    simpa [isPySpace, decide_eq_true_eq] using h
  rcases h2 with ((((rfl | rfl) | rfl) | rfl) | rfl) | rfl <;> decide

/-- A whitespace-only (or empty) query cleans to the empty string. -/
theorem preprocess_blank {user : Str} (h : ∀ c ∈ user, isPySpace c = true) :
    preprocess_user_storyline user = [] := by
  have hl : ∀ c ∈ pyLower user, isPySpace c = true := by
    intro c hc
    rcases List.mem_map.mp hc with ⟨d, hd, rfl⟩
    rw [toLower_space (h d hd)]
    exact h d hd
  have hs : ∀ c ∈ pyStrip (pyLower user), isPySpace c = true := by
    intro c hc
    exact hl c (List.mem_of_mem_filter hc)
  rw [preprocess_user_storyline, pySplit_all_space _ hs]
  rfl

/-- With a blank query the token list is empty and every similarity score is
zero. -/
theorem blank_query_scores (idf : ℕ → ℕ → ℚ) (ctx mat : List (List Token)) {user : Str}
    (h : ∀ c ∈ user, isPySpace c = true) :
    ∀ p ∈ similarity_scores idf ctx (vectTokens (preprocess_user_storyline user)) mat,
      p.2 = 0 := by
  intro p hp
  have hq : vectTokens (preprocess_user_storyline user) = [] := by
    rw [preprocess_blank h]
    rfl
  have h2 := mem_enum_getD hp
  have h1 := mem_enum_fst_lt hp
  rw [List.length_map] at h1
  rw [List.getD_eq_getElem _ _ (by simpa using h1), List.getElem_map] at h2
  rw [← h2, hq]
  exact simSq_eq_zero (Or.inl (dotW_nil_left idf ctx _))

/-- Taking a prefix of an enumeration and reading the records back off the
dataframe is the same as reading the dataframe prefix directly. -/
theorem map_fst_enum_take (df : List Movie) (scores : List ℚ) (k : ℕ)
    (hlen : scores.length = df.length) :
    (scores.enum.take k).map (fun p => recordOf df p.1) =
      (df.take k).map (fun m => (m.name, m.storyline)) := by
  refine List.ext_getElem ?_ ?_
  · simp [hlen]
  · intro j h1 h2
    simp only [List.length_map, List.length_take, List.enum_length] at h1
    have hj : j < scores.length := by omega
    have hjdf : j < df.length := by omega
    have hjenum : j < scores.enum.length := by
      simpa [List.enum_length] using hj
    rw [List.getElem_map, List.getElem_map, List.getElem_take, List.getElem_take,
      List.getElem_enum]
    rw [recordOf, List.getD_eq_getElem df default hjdf]

/-- On a successfully built index, a blank query returns the first
`min(RECOMMENDATION_COUNT, corpus size)` documents, in corpus order. -/
theorem blank_query_output (idf : ℕ → ℕ → ℚ) (recs : List Record) {user : Str}
    (h : ∀ c ∈ user, isPySpace c = true) :
    get_recommendations idf (builtFrom recs) user =
      some (((docsOf recs).take RECOMMENDATION_COUNT).map (fun m => (m.name, m.storyline))) := by
  rw [get_recommendations_built]
  have hconst : rankedScores idf recs user =
      similarity_scores idf (rowsOf recs) (vectTokens (preprocess_user_storyline user))
        (rowsOf recs) :=
    pySorted_const (blank_query_scores idf (rowsOf recs) (rowsOf recs) h)
  rw [hconst]
  unfold similarity_scores
  rw [map_fst_enum_take _ _ _ (by rw [List.length_map, rowsOf_length])]

/-! ## The claims -/

/-- C4: The normalization applied to a query inside `get_recommendations`
(lines 87–89) is, as a function from string to string, identical to the
normalization `clean_text` applied to each document's storyline at
index-build time (lines 44–51): the two code blocks are verbatim copies, so
for every input string they produce the same output. -/
theorem c4_query_normalization_identical (s : Str) :
    preprocess_user_storyline s = clean_text s := rfl

/-- C7: against an initialized (successfully built) index, scoring is total:
`get_recommendations` always returns a result rather than raising, and
whenever either the query vector's norm or a document vector's norm is zero
the cosine similarity score of that pair is defined to be 0. -/
theorem c7_scoring_total_and_zero_guard (idf : ℕ → ℕ → ℚ) (src : Option (List Record))
    (s t : EngineState) (h : load_and_preprocess_data src s = (t, true)) (user : Str) :
    (∃ out, get_recommendations idf t user = some out) ∧
      ∀ (ctx : List (List Token)) (a b : List Token),
        dotW idf ctx a a = 0 ∨ dotW idf ctx b b = 0 → simSq idf ctx a b = 0 := by
  obtain ⟨recs, _, _, rfl⟩ := load_success h
  exact ⟨⟨_, get_recommendations_built idf recs user⟩, fun ctx a b hz => simSq_eq_zero hz⟩

/-- Witness for C7 at the two-document demo corpus. -/
theorem c7_scoring_total_and_zero_guard_witness :
    (∃ out, get_recommendations oneIdf (builtFrom demoRecords) "wizard".toList = some out) ∧
      ∀ (ctx : List (List Token)) (a b : List Token),
        dotW oneIdf ctx a a = 0 ∨ dotW oneIdf ctx b b = 0 → simSq oneIdf ctx a b = 0 :=
  c7_scoring_total_and_zero_guard oneIdf (some demoRecords) initState (builtFrom demoRecords)
    (by decide) "wizard".toList

/-- C9: building the same corpus twice (from arbitrary, possibly different
prior states) publishes identical states — hence identical vocabularies and
identical idf-weighted term weights — and for every fixed query identical
ranked output. -/
theorem c9_build_deterministic (idf : ℕ → ℕ → ℚ) (src : Option (List Record))
    (s s' t t' : EngineState) (h : load_and_preprocess_data src s = (t, true))
    (h' : load_and_preprocess_data src s' = (t', true)) :
    t = t' ∧
      (∀ rows rows', t.tfidf_matrix = some rows → t'.tfidf_matrix = some rows' →
        vocabOf rows = vocabOf rows' ∧
          ∀ (d : List Token) (tok : Token),
            tfidfWeight idf rows d tok = tfidfWeight idf rows' d tok) ∧
      ∀ user, get_recommendations idf t user = get_recommendations idf t' user := by
  obtain ⟨recs, hsrc, _, rfl⟩ := load_success h
  obtain ⟨recs', hsrc', _, rfl⟩ := load_success h'
  rw [hsrc] at hsrc'
  injection hsrc' with hrr
  subst hrr
  refine ⟨rfl, ?_, fun user => rfl⟩
  intro rows rows' hr hr'
  have h1 : rowsOf recs = rows := by
    simpa [builtFrom] using hr
  have h2 : rowsOf recs = rows' := by
    simpa [builtFrom] using hr'
  rw [← h1, ← h2]
  exact ⟨rfl, fun d tok => rfl⟩

/-- Witness for C9: two builds of the demo corpus from different prior
states. -/
theorem c9_build_deterministic_witness :
    builtFrom demoRecords = builtFrom demoRecords ∧
      (∀ rows rows', (builtFrom demoRecords).tfidf_matrix = some rows →
        (builtFrom demoRecords).tfidf_matrix = some rows' →
        vocabOf rows = vocabOf rows' ∧
          ∀ (d : List Token) (tok : Token),
            tfidfWeight oneIdf rows d tok = tfidfWeight oneIdf rows' d tok) ∧
      ∀ user, get_recommendations oneIdf (builtFrom demoRecords) user =
        get_recommendations oneIdf (builtFrom demoRecords) user :=
  c9_build_deterministic oneIdf (some demoRecords) initState (builtFrom demoRecords)
    (builtFrom demoRecords) (builtFrom demoRecords) (by decide) (by decide)

/-- C8: a build over a readable source with zero usable documents fails
(returns `False`, the generic build failure, rather than success), and in
every state reached from the uninitialized start through failed builds only,
`get_recommendations` refuses — the matrix global is still `None`, so it
prints the not-initialized message and returns no results. -/
theorem c8_empty_corpus_then_not_initialized (recs : List Record)
    (h : recs.filter (fun r => r.storyline.isSome) = []) :
    (load_and_preprocess_data (some recs) initState).2 = false ∧
      ∀ t, FailedBuilds (load_and_preprocess_data (some recs) initState).1 t →
        ∀ (idf : ℕ → ℕ → ℚ) (user : Str), get_recommendations idf t user = some [] := by
  have hdocs : docsOf recs = [] := by
    rw [docsOf, h]
    rfl
  have hrows : rowsOf recs = [] := by
    rw [rowsOf, hdocs]
    rfl
  have hv : vocabOf (rowsOf recs) = [] := by
    rw [hrows]
    rfl
  rw [load_some, if_pos hv]
  refine ⟨rfl, ?_⟩
  intro t ht idf user
  refine get_recommendations_no_matrix idf ?_ user
  rw [failedBuilds_matrix ht]
  rfl

/-- Witness for C8: a one-record corpus whose only storyline cell is NaN. -/
theorem c8_empty_corpus_then_not_initialized_witness :
    (load_and_preprocess_data (some [⟨"C".toList, none⟩]) initState).2 = false ∧
      ∀ t, FailedBuilds (load_and_preprocess_data (some [⟨"C".toList, none⟩]) initState).1 t →
        ∀ (idf : ℕ → ℕ → ℚ) (user : Str), get_recommendations idf t user = some [] :=
  c8_empty_corpus_then_not_initialized [⟨"C".toList, none⟩] (by decide)

/-- C5 counterexample: a successful build of the demo corpus followed by a
failed build over a readable-but-empty source does NOT leave the previously
published state untouched: the failing build returns `False` yet the
resulting state differs from the prior one (`movies_df` and the vectorizer
were already overwritten). -/
theorem c5_counterexample_failed_build_mutates :
    (load_and_preprocess_data (some demoRecords) initState).2 = true ∧
      (load_and_preprocess_data (some [])
        (load_and_preprocess_data (some demoRecords) initState).1).2 = false ∧
      (load_and_preprocess_data (some [])
        (load_and_preprocess_data (some demoRecords) initState).1).1 ≠
        (load_and_preprocess_data (some demoRecords) initState).1 :=
  ⟨by decide, by decide, by decide⟩

/-- C5 amended: only the unreadable-source failure (`pd.read_csv` raising)
leaves the prior state untouched; a build that fails after a successful read
overwrites `movies_df` (new cleaned documents) and `tfidf_vectorizer` (fresh
unfitted instance), and only `tfidf_matrix` keeps its prior value — so a
failed rebuild after a successful build leaves a half-updated index visible
to `get_recommendations`. -/
theorem c5_amended_failed_build_state (src : Option (List Record)) (s t : EngineState)
    (h : load_and_preprocess_data src s = (t, false)) :
    (src = none → t = s) ∧
      ∀ recs, src = some recs →
        t = ⟨some (docsOf recs), some Vect.unfitted, s.tfidf_matrix⟩ := by
  constructor
  · rintro rfl
    rw [load_none] at h
    injection h with h1 _
    exact h1.symm
  · rintro recs rfl
    rw [load_some] at h
    split at h
    · injection h with h1 _
      exact h1.symm
    · simp at h

/-- Witness for C5 (amended), at the failed empty rebuild over the built
demo state. -/
theorem c5_amended_failed_build_state_witness :
    (some ([] : List Record) = none →
        (⟨some [], some Vect.unfitted, (builtFrom demoRecords).tfidf_matrix⟩ : EngineState) =
          builtFrom demoRecords) ∧
      ∀ recs, some ([] : List Record) = some recs →
        (⟨some [], some Vect.unfitted, (builtFrom demoRecords).tfidf_matrix⟩ : EngineState) =
          ⟨some (docsOf recs), some Vect.unfitted, (builtFrom demoRecords).tfidf_matrix⟩ :=
  c5_amended_failed_build_state (some []) (builtFrom demoRecords)
    ⟨some [], some Vect.unfitted, (builtFrom demoRecords).tfidf_matrix⟩ (by decide)

/-- C1: on every initialized index and every query, `get_recommendations`
returns exactly `min(RECOMMENDATION_COUNT, corpus size)` entries, namely the
records of the first `RECOMMENDATION_COUNT` positions of the ranking, which
is pairwise `RankedBefore`: similarity scores descend, and on exactly equal
scores the smaller original corpus index comes first. -/
theorem c1_topk_sorted_stable (idf : ℕ → ℕ → ℚ) (src : Option (List Record))
    (s t : EngineState) (h : load_and_preprocess_data src s = (t, true)) (user : Str) :
    ∃ recs out, src = some recs ∧
      get_recommendations idf t user = some out ∧
      out.length = min RECOMMENDATION_COUNT (docsOf recs).length ∧
      ((rankedScores idf recs user).take RECOMMENDATION_COUNT).Pairwise RankedBefore ∧
      out = ((rankedScores idf recs user).take RECOMMENDATION_COUNT).map
        (fun p => recordOf (docsOf recs) p.1) := by
  obtain ⟨recs, rfl, _, rfl⟩ := load_success h
  refine ⟨recs, _, rfl, get_recommendations_built idf recs user, ?_, ?_, rfl⟩
  · rw [List.length_map, List.length_take]
    have hlen : (rankedScores idf recs user).length = (docsOf recs).length := by
      unfold rankedScores
      rw [(pySorted_perm _).length_eq]
      unfold similarity_scores
      rw [List.enum_length, List.length_map, rowsOf_length]
    rw [hlen]
  · unfold rankedScores
    exact (pySorted_pairwise (enum_pairwise_lt _)).sublist (List.take_sublist _ _)

/-- Witness for C1 at the demo corpus and the specification's demo query. -/
theorem c1_topk_sorted_stable_witness :
    ∃ recs out, some demoRecords = some recs ∧
      get_recommendations oneIdf (builtFrom demoRecords)
        "a young wizard fights a dragon".toList = some out ∧
      out.length = min RECOMMENDATION_COUNT (docsOf recs).length ∧
      ((rankedScores oneIdf recs "a young wizard fights a dragon".toList).take
        RECOMMENDATION_COUNT).Pairwise RankedBefore ∧
      out = ((rankedScores oneIdf recs "a young wizard fights a dragon".toList).take
        RECOMMENDATION_COUNT).map (fun p => recordOf (docsOf recs) p.1) :=
  c1_topk_sorted_stable oneIdf (some demoRecords) initState (builtFrom demoRecords)
    (by decide) "a young wizard fights a dragon".toList

/-- C2 counterexample: on the built demo corpus the empty query does not
return an empty sequence: the engine instead returns
`min(RECOMMENDATION_COUNT, corpus size)` = 2 zero-scored records, in corpus
order. -/
theorem c2_counterexample_blank_query_nonempty :
    get_recommendations oneIdf (builtFrom demoRecords) [] =
      some [("A".toList, "a wizard battles a dragon".toList),
            ("B".toList, "a detective solves a murder".toList)] ∧
      get_recommendations oneIdf (builtFrom demoRecords) [] ≠ some [] := by
  have h := @blank_query_output oneIdf demoRecords [] (by simp)
  rw [h]
  exact ⟨by decide, by decide⟩

/-- C2 amended: there is no `k` parameter (the count is the constant
`RECOMMENDATION_COUNT`), and an empty or whitespace-only query is not
treated as an error — but rather than an empty sequence, every similarity
score is 0 and `get_recommendations` returns the first
`min(RECOMMENDATION_COUNT, corpus size)` documents in corpus order. -/
theorem c2_amended_blank_query_returns_prefix (idf : ℕ → ℕ → ℚ) (src : Option (List Record))
    (s t : EngineState) (h : load_and_preprocess_data src s = (t, true)) (user : Str)
    (huser : ∀ c ∈ user, isPySpace c = true) :
    ∃ recs, src = some recs ∧
      (∀ p ∈ similarity_scores idf (rowsOf recs)
          (vectTokens (preprocess_user_storyline user)) (rowsOf recs), p.2 = 0) ∧
      get_recommendations idf t user =
        some (((docsOf recs).take RECOMMENDATION_COUNT).map
          (fun m => (m.name, m.storyline))) := by
  obtain ⟨recs, rfl, _, rfl⟩ := load_success h
  exact ⟨recs, rfl, blank_query_scores idf _ _ huser, blank_query_output idf recs huser⟩

/-- Witness for C2 (amended) at a whitespace-only query over the demo
corpus. -/
theorem c2_amended_blank_query_returns_prefix_witness :
    ∃ recs, some demoRecords = some recs ∧
      (∀ p ∈ similarity_scores oneIdf (rowsOf recs)
          (vectTokens (preprocess_user_storyline "  ".toList)) (rowsOf recs), p.2 = 0) ∧
      get_recommendations oneIdf (builtFrom demoRecords) "  ".toList =
        some (((docsOf recs).take RECOMMENDATION_COUNT).map
          (fun m => (m.name, m.storyline))) :=
  c2_amended_blank_query_returns_prefix oneIdf (some demoRecords) initState
    (builtFrom demoRecords) (by decide) "  ".toList (by decide)

/-- C3: querying `get_recommendations` with a document's own raw storyline
text gives that document the maximum similarity score over the whole
corpus: its (index, score) pair appears in the ranking, every ranked score
is at most its score, and the head of the ranking carries exactly that
score — the document is ranked first or tied-first. -/
theorem c3_self_query_ranks_first (idf : ℕ → ℕ → ℚ) (src : Option (List Record))
    (s t : EngineState) (h : load_and_preprocess_data src s = (t, true))
    (recs : List Record) (hsrc : src = some recs) (i : ℕ) (hi : i < (docsOf recs).length)
    (hnd : ((docsOf recs).getD i default).cleaned ≠ []) :
    ∃ si, (i, si) ∈ rankedScores idf recs (((docsOf recs).getD i default).storyline) ∧
      (∀ p ∈ rankedScores idf recs (((docsOf recs).getD i default).storyline), p.2 ≤ si) ∧
      ∃ p rest, rankedScores idf recs (((docsOf recs).getD i default).storyline) =
        p :: rest ∧ p.2 = si := by
  subst hsrc
  have hi2 : i < (rowsOf recs).length := by
    rw [rowsOf_length]
    exact hi
  have hmem : (docsOf recs).getD i default ∈ docsOf recs := by
    rw [List.getD_eq_getElem _ default hi]
    exact List.getElem_mem hi
  have hclean : ((docsOf recs).getD i default).cleaned =
      clean_text (((docsOf recs).getD i default).storyline) := by
    rcases List.mem_map.mp hmem with ⟨r, _, hr⟩
    rw [← hr]
  set q := vectTokens (preprocess_user_storyline (((docsOf recs).getD i default).storyline))
    with hqdef
  have hi3 : i < ((docsOf recs).map (fun d => vectTokens d.cleaned)).length := hi2
  have hrow : (rowsOf recs).getD i [] = q := by
    rw [List.getD_eq_getElem _ [] hi2]
    show ((docsOf recs).map (fun d => vectTokens d.cleaned))[i] = q
    rw [List.getElem_map, ← List.getD_eq_getElem _ default hi, hclean, hqdef]
    rfl
  have hscore : ((rowsOf recs).map (fun row => simSq idf (rowsOf recs) q row)).getD i 0 =
      simSq idf (rowsOf recs) q q := by
    rw [List.getD_eq_getElem _ 0 (by simpa using hi2), List.getElem_map,
      ← List.getD_eq_getElem _ [] hi2, hrow]
  have hmem2 : (i, simSq idf (rowsOf recs) q q) ∈
      rankedScores idf recs (((docsOf recs).getD i default).storyline) := by
    refine (pySorted_perm _).mem_iff.mpr ?_
    rw [← hscore]
    exact getD_mem_enum (by simpa using hi2)
  have hbound : ∀ p ∈ rankedScores idf recs (((docsOf recs).getD i default).storyline),
      p.2 ≤ simSq idf (rowsOf recs) q q := by
    intro p hp
    rw [(rankedScores_mem hp).2]
    exact simSq_le_self idf (rowsOf recs) q _
  refine ⟨simSq idf (rowsOf recs) q q, hmem2, hbound, ?_⟩
  obtain ⟨p, rest, hranked⟩ :
      ∃ p rest, rankedScores idf recs (((docsOf recs).getD i default).storyline) =
        p :: rest := by
    cases hr : rankedScores idf recs (((docsOf recs).getD i default).storyline) with
    | nil =>
      rw [hr] at hmem2
      exact absurd hmem2 (List.not_mem_nil _)
    | cons p rest => exact ⟨p, rest, rfl⟩
  refine ⟨p, rest, hranked, ?_⟩
  have hple : p.2 ≤ simSq idf (rowsOf recs) q q := by
    refine hbound p ?_
    rw [hranked]
    exact List.mem_cons_self p rest
  have hpge : simSq idf (rowsOf recs) q q ≤ p.2 := by
    have hpw := pySorted_pairwise
      (enum_pairwise_lt ((rowsOf recs).map (fun row => simSq idf (rowsOf recs) q row)))
    have hpw2 : (rankedScores idf recs
        (((docsOf recs).getD i default).storyline)).Pairwise RankedBefore := hpw
    rw [hranked] at hpw2 hmem2
    rcases List.mem_cons.mp hmem2 with heq | hmem3
    · rw [← heq]
    · exact ((List.pairwise_cons.mp hpw2).1 _ hmem3).1
  exact le_antisymm hple hpge

/-- Witness for C3: querying with document 0's own storyline over the demo
corpus. -/
theorem c3_self_query_ranks_first_witness :
    ∃ si, (0, si) ∈ rankedScores oneIdf demoRecords
        (((docsOf demoRecords).getD 0 default).storyline) ∧
      (∀ p ∈ rankedScores oneIdf demoRecords
          (((docsOf demoRecords).getD 0 default).storyline), p.2 ≤ si) ∧
      ∃ p rest, rankedScores oneIdf demoRecords
          (((docsOf demoRecords).getD 0 default).storyline) = p :: rest ∧ p.2 = si :=
  c3_self_query_ranks_first oneIdf (some demoRecords) initState (builtFrom demoRecords)
    (by decide) demoRecords rfl 0 (by decide) (by decide)

/-- C6: every record whose storyline cell is absent/empty (NaN after
`read_csv`, dropped by `dropna`) is excluded from the index entirely: every
published document stems from a record with a present storyline, every
matrix row is the token vector of one of those documents, every vocabulary
term occurs in one of those rows, and every entry `get_recommendations`
ever returns is one of those documents. -/
theorem c6_dropped_records_excluded (idf : ℕ → ℕ → ℚ) (src : Option (List Record))
    (s t : EngineState) (h : load_and_preprocess_data src s = (t, true)) :
    ∃ recs df rows, src = some recs ∧ t.movies_df = some df ∧ t.tfidf_matrix = some rows ∧
      rows.length = df.length ∧
      (∀ m ∈ df, ∃ r ∈ recs, r.storyline = some m.storyline ∧ r.name = m.name ∧
        m.cleaned = clean_text m.storyline) ∧
      (∀ row ∈ rows, ∃ m ∈ df, row = vectTokens m.cleaned) ∧
      (∀ tok ∈ vocabOf rows, ∃ m ∈ df, tok ∈ vectTokens m.cleaned) ∧
      ∀ user out, get_recommendations idf t user = some out →
        ∀ e ∈ out, ∃ m ∈ df, e = (m.name, m.storyline) := by
  obtain ⟨recs, rfl, _, rfl⟩ := load_success h
  have hdf : ∀ m ∈ docsOf recs, ∃ r ∈ recs, r.storyline = some m.storyline ∧
      r.name = m.name ∧ m.cleaned = clean_text m.storyline := by
    intro m hm
    rcases List.mem_map.mp hm with ⟨r, hr, rfl⟩
    have hr2 := List.mem_filter.mp hr
    refine ⟨r, hr2.1, ?_, rfl, rfl⟩
    cases hro : r.storyline with
    | none =>
      rw [hro] at hr2
      simp at hr2
    | some st => simp [hro]
  have hrows : ∀ row ∈ rowsOf recs, ∃ m ∈ docsOf recs, row = vectTokens m.cleaned := by
    intro row hrow
    rcases List.mem_map.mp hrow with ⟨m, hm, rfl⟩
    exact ⟨m, hm, rfl⟩
  refine ⟨recs, docsOf recs, rowsOf recs, rfl, rfl, rfl, rowsOf_length recs, hdf, hrows,
    ?_, ?_⟩
  · intro tok htok
    rcases List.mem_flatten.mp (List.mem_dedup.mp htok) with ⟨row, hrow, ht⟩
    rcases hrows row hrow with ⟨m, hm, rfl⟩
    exact ⟨m, hm, ht⟩
  · intro user out hout e he
    rw [get_recommendations_built] at hout
    injection hout with hout2
    rw [← hout2] at he
    rcases List.mem_map.mp he with ⟨p, hp, rfl⟩
    have hp2 := (rankedScores_mem (List.mem_of_mem_take hp)).1
    refine ⟨(docsOf recs).getD p.1 default, ?_, rfl⟩
    rw [List.getD_eq_getElem _ default hp2]
    exact List.getElem_mem hp2

/-- Witness for C6 at a corpus with one usable and one NaN-storyline
record. -/
theorem c6_dropped_records_excluded_witness :
    ∃ recs df rows, some mixedRecords = some recs ∧
      (builtFrom mixedRecords).movies_df = some df ∧
      (builtFrom mixedRecords).tfidf_matrix = some rows ∧
      rows.length = df.length ∧
      (∀ m ∈ df, ∃ r ∈ recs, r.storyline = some m.storyline ∧ r.name = m.name ∧
        m.cleaned = clean_text m.storyline) ∧
      (∀ row ∈ rows, ∃ m ∈ df, row = vectTokens m.cleaned) ∧
      (∀ tok ∈ vocabOf rows, ∃ m ∈ df, tok ∈ vectTokens m.cleaned) ∧
      ∀ user out, get_recommendations oneIdf (builtFrom mixedRecords) user = some out →
        ∀ e ∈ out, ∃ m ∈ df, e = (m.name, m.storyline) :=
  c6_dropped_records_excluded oneIdf (some mixedRecords) initState (builtFrom mixedRecords)
    (by decide)

/-- C10 counterexample: in the corpus whose only storyline is "7 wizards!",
the token "7" survives the shared normalization (it is a token of the
cleaned text, being on neither stop list) and would therefore be in the
vocabulary if the effective removed set were the union of the two stop
lists — yet it is excluded, because the vectorizer's default token pattern
drops all single-character tokens. -/
theorem c10_counterexample_short_token :
    "7".toList ∈ pySplit (clean_text "7 wizards!".toList) ∧
      "7".toList ∉ nltkStop ∧ "7".toList ∉ sklearnStop ∧
      "7".toList ∉ vocabOf (rowsOf [⟨"S".toList, some "7 wizards!".toList⟩]) :=
  ⟨by decide, by decide, by decide, by decide⟩

/-- C10 amended: tokens on the scikit-learn stop list are excluded from the
vocabulary at build time and from query token lists at query time,
identically on both sides (the same token filter runs on both); the
effective set of removed tokens is the union of the two stop lists
*together with all single-character tokens*, which the default token
pattern `\b\w\w+\b` drops. -/
theorem c10_amended_stoplists_union_and_short (s : Str) (t : Token) :
    (t ∈ vectTokens (clean_text s) ↔
      t ∈ pySplit (pyStrip (pyLower s)) ∧ t ∉ nltkStop ∧ 2 ≤ t.length ∧ t ∉ sklearnStop) ∧
    (t ∈ vectTokens (preprocess_user_storyline s) ↔
      t ∈ pySplit (pyStrip (pyLower s)) ∧ t ∉ nltkStop ∧ 2 ≤ t.length ∧ t ∉ sklearnStop) ∧
    ∀ recs, t ∈ sklearnStop → t ∉ vocabOf (rowsOf recs) := by
  refine ⟨mem_vectTokens_clean_text s t, mem_vectTokens_clean_text s t, ?_⟩
  intro recs hsk hv
  rcases List.mem_flatten.mp (List.mem_dedup.mp hv) with ⟨row, hrow, ht⟩
  rcases List.mem_map.mp hrow with ⟨m, _, rfl⟩
  have h3 : (!decide (t ∈ sklearnStop)) = true := (List.mem_filter.mp ht).2
  rw [decide_eq_true hsk] at h3
  simp at h3

/-- Witness for C10 (amended) at the short-token document. -/
theorem c10_amended_stoplists_union_and_short_witness :
    ("wizards".toList ∈ vectTokens (clean_text "7 wizards!".toList) ↔
      "wizards".toList ∈ pySplit (pyStrip (pyLower "7 wizards!".toList)) ∧
        "wizards".toList ∉ nltkStop ∧ 2 ≤ "wizards".toList.length ∧
        "wizards".toList ∉ sklearnStop) ∧
    ("wizards".toList ∈ vectTokens (preprocess_user_storyline "7 wizards!".toList) ↔
      "wizards".toList ∈ pySplit (pyStrip (pyLower "7 wizards!".toList)) ∧
        "wizards".toList ∉ nltkStop ∧ 2 ≤ "wizards".toList.length ∧
        "wizards".toList ∉ sklearnStop) ∧
    ∀ recs, "wizards".toList ∈ sklearnStop →
      "wizards".toList ∉ vocabOf (rowsOf recs) :=
  c10_amended_stoplists_union_and_short "7 wizards!".toList "wizards".toList
